import Mathlib

/-!
Shallow embedding of the grading/attendance core of the iskwela school
administration portal: late-attendance derivation, attendance upserts,
the grade ledger with quarterly/final averaging, the registration
approval workflow and bulk promotion, together with proofs of the
behavioural properties claimed for them.
-/

namespace Iskwela

/-! ### Generic list helpers -/

/-- Updating exactly the elements satisfying `p` (with an update that keeps
`p` true) commutes with `find?`. -/
theorem find?_map_ite {α : Type} (p : α → Bool) (f : α → α)
    (hf : ∀ a, p a = true → p (f a) = true) (l : List α) :
    (l.map (fun a => if p a then f a else a)).find? p = (l.find? p).map f := by
  induction l with
  | nil => rfl
  | cons x xs ih =>
    by_cases hx : p x = true
    · simp [List.find?, hx, hf x hx]
    · have hx' : p x = false := by
        cases h : p x
        · rfl
        · exact absurd h hx
      simp [List.find?, hx', ih]

/-- `find?` over an append whose first part has no match searches the tail. -/
theorem find?_append_of_none {α : Type} (p : α → Bool) (l₁ l₂ : List α)
    (h : l₁.find? p = none) : (l₁ ++ l₂).find? p = l₂.find? p := by
  induction l₁ with
  | nil => rfl
  | cons x xs ih =>
    cases hx : p x with
    | true => simp [List.find?, hx] at h
    | false =>
      rw [List.find?_cons_of_neg _ (by simp [hx])] at h
      rw [List.cons_append, List.find?_cons_of_neg _ (by simp [hx])]
      exact ih h

/-! ### Domain rule: lateness

`isLate` (src/pages/Users.tsx) and `isLateAttendance`
(src/components/common/Layout.tsx) both compare the time-in against the
class start plus `ATTENDANCE_RULES.LATE_THRESHOLD_MINUTES` (= 15).  The
source parses `HH:MM` strings onto a fixed date and compares the
resulting instants; we model a time of day as minutes since midnight,
with `none` standing for a missing (falsy) input string. -/

def LATE_THRESHOLD_MINUTES : Nat := 15

/-- `isLate` from `src/pages/Users.tsx`: false when either input is
missing, otherwise true iff `timeIn` is strictly past
`classStartTime + 15` minutes. -/
def isLate (timeIn classStartTime : Option Nat) : Bool :=
  match timeIn, classStartTime with
  | some t, some s => decide (t > s + LATE_THRESHOLD_MINUTES)
  | _, _ => false

/-- `isLateAttendance` from `src/components/common/Layout.tsx`: the same
comparison, with the threshold drawn from `ATTENDANCE_RULES`. -/
def isLateAttendance (timeIn classStartTime : Option Nat) : Bool :=
  match timeIn, classStartTime with
  | some t, some s => decide (t > s + LATE_THRESHOLD_MINUTES)
  | _, _ => false

/-- C5: `isLate(timeIn, classStart)` is true iff `timeIn` is strictly
greater than `classStart` plus the 15-minute threshold; a missing
`timeIn` or `classStart` always yields false; and `isLateAttendance`
agrees with `isLate` everywhere. -/
theorem isLate_iff_strictly_past_threshold :
    (∀ t s : Nat, isLate (some t) (some s) = true ↔ t > s + 15) ∧
    (∀ c : Option Nat, isLate none c = false) ∧
    (∀ t : Option Nat, isLate t none = false) ∧
    (∀ t c : Option Nat, isLateAttendance t c = isLate t c) := by
  refine ⟨?_, ?_, ?_, ?_⟩
  · intro t s
    simp [isLate, LATE_THRESHOLD_MINUTES]
  · intro c
    cases c <;> rfl
  · intro t
    cases t <;> rfl
  · intro t c
    cases t <;> cases c <;> rfl

/-! ### Attendance recorder (src/pages/Users.tsx)

The `attendance` table rows, the audit log rows written by the
attendance handlers, and the two handlers `markAttendance` and
`handleExcuseAbsence`.  Both handlers persist via
`upsert(..., { onConflict: 'pupil_id,subject_id,date' })`: on conflict
the columns present in the payload are overwritten and the others keep
their stored values; otherwise a new row is inserted with the missing
columns left at their defaults (null). -/

inductive AttStatus
  | present
  | absent
  | late
  | excused
deriving DecidableEq, Repr

structure AttendanceRecord where
  pupil_id : String
  subject_id : String
  date : String
  time_in : Option Nat
  status : AttStatus
  remarks : Option String
  excuse_reason : Option String
  teacher_id : String
deriving DecidableEq, Repr

/-- An `audit_logs` row as written by the attendance handlers:
`mark_attendance` has no `old_values`; `excuse_absence` writes the
literal `old_values: { status: 'absent' }`. -/
structure AttAudit where
  user_id : String
  action : String
  old_status : Option AttStatus
  new_status : AttStatus
  new_excuse_reason : Option String
deriving DecidableEq, Repr

structure Subj where
  id : String
  start_time : Option Nat
deriving DecidableEq, Repr

structure Pupil where
  id : String
  grade_level : Nat
  class_section : String
  archived : Bool
  parent_id : Option String
deriving DecidableEq, Repr

structure AttState where
  attendance : List AttendanceRecord
  audit_logs : List AttAudit
  notifications : List String
deriving DecidableEq, Repr

/-- The `onConflict: 'pupil_id,subject_id,date'` key. -/
def attKey (pupilId subjectId date : String) (r : AttendanceRecord) : Bool :=
  r.pupil_id == pupilId && r.subject_id == subjectId && r.date == date

/-- Postgres `upsert` on a conflict key: when a row matching `key`
exists, overwrite the payload columns on it (`f`); otherwise insert the
payload as a fresh row (`new`). -/
def upsertBy (key : AttendanceRecord → Bool)
    (f : AttendanceRecord → AttendanceRecord) (new : AttendanceRecord)
    (l : List AttendanceRecord) : List AttendanceRecord :=
  if l.any key then l.map (fun r => if key r then f r else r) else l ++ [new]

theorem find?_upsertBy_of_found (key : AttendanceRecord → Bool) (f new)
    (hf : ∀ r, key r = true → key (f r) = true)
    {l : List AttendanceRecord} {r0 : AttendanceRecord}
    (h : l.find? key = some r0) :
    (upsertBy key f new l).find? key = some (f r0) := by
  have hany : l.any key = true := by
    rw [List.any_eq_true]
    exact ⟨r0, List.mem_of_find?_eq_some h, List.find?_some h⟩
  rw [upsertBy, if_pos hany, find?_map_ite key f hf, h]
  rfl

theorem find?_upsertBy_of_none (key : AttendanceRecord → Bool) (f new)
    (hnew : key new = true)
    {l : List AttendanceRecord} (h : l.find? key = none) :
    (upsertBy key f new l).find? key = some new := by
  have hany : l.any key = false := by
    rw [List.any_eq_false]
    intro x hx
    rw [List.find?_eq_none] at h
    simp [h x hx]
  rw [upsertBy, if_neg (by simp [hany]), find?_append_of_none key l [new] h,
    List.find?_cons_of_pos _ hnew]

theorem length_upsertBy (key : AttendanceRecord → Bool) (f new)
    (l : List AttendanceRecord) :
    (upsertBy key f new l).length =
      if l.any key then l.length else l.length + 1 := by
  rw [upsertBy]
  by_cases h : l.any key = true
  · simp [h]
  · have h' : l.any key = false := by
      cases hh : l.any key
      · rfl
      · exact absurd hh h
    rw [if_neg (by simp [h']), h']
    simp

inductive Role
  | admin
  | teacher
  | parent
deriving DecidableEq, Repr

/-- `markAttendance` from `src/pages/Users.tsx`.  `user` is the signed-in
actor (`!user || isRole('parent')` is rejected), `selectedSubject` the
chosen subject id (empty string is falsy and rejected), `clock` the
value `getCurrentTime()` would return, `timeIn` the optional observed
time-in (`timeIn || getCurrentTime()`).  The effective status re-derives
a nominal `present` into `late` via `isLate`; `time_in` is taken from
the caller-supplied `status`; the row is upserted; one audit row is
inserted; an absence notification goes to the pupil's guardian when
linked. -/
def markAttendance (user : Option String) (role : Role)
    (selectedSubject : String) (subjects : List Subj) (pupils : List Pupil)
    (dateStr : String) (clock : Nat)
    (pupilId : String) (status : AttStatus) (timeIn : Option Nat)
    (remarks : String) (st : AttState) : Except String AttState :=
  match user with
  | none => .error "You do not have permission to mark attendance"
  | some uid =>
    if role = .parent then .error "You do not have permission to mark attendance"
    else if selectedSubject = "" then .error "Please select a subject first"
    else
      let currentTime := timeIn.getD clock
      let subject := subjects.find? (fun s => s.id == selectedSubject)
      let finalStatus :=
        if status = .present then
          match subject with
          | some sub =>
            match sub.start_time with
            | some s0 => if isLate (some currentTime) (some s0) then .late else status
            | none => status
          | none => status
        else status
      let timeInCol : Option Nat :=
        if status = .present ∨ status = .late then some currentTime else none
      let key := attKey pupilId selectedSubject dateStr
      let attendance' :=
        upsertBy key
          (fun r =>
            { r with time_in := timeInCol, status := finalStatus,
                     remarks := some remarks, teacher_id := uid })
          { pupil_id := pupilId, subject_id := selectedSubject,
            date := dateStr, time_in := timeInCol, status := finalStatus,
            remarks := some remarks, excuse_reason := none,
            teacher_id := uid }
          st.attendance
      let audit : AttAudit :=
        { user_id := uid, action := "mark_attendance", old_status := none,
          new_status := finalStatus, new_excuse_reason := none }
      let notifications' :=
        if finalStatus = .absent then
          match pupils.find? (fun p => p.id == pupilId) with
          | some p =>
            match p.parent_id with
            | some gid => st.notifications ++ [gid]
            | none => st.notifications
          | none => st.notifications
        else st.notifications
      .ok { attendance := attendance',
            audit_logs := st.audit_logs ++ [audit],
            notifications := notifications' }

/-- The guard `!excuseReason.trim()` of the source: a string is falsy
after trimming exactly when it consists only of whitespace. -/
def isBlank (s : String) : Bool := s.data.all Char.isWhitespace

/-- `handleExcuseAbsence` from `src/pages/Users.tsx`: rejects an
empty/whitespace reason before any write, then upserts the row at
(pupil, subject, date) to status `excused` with the reason — the upsert
creates the row when none exists.  The audit row records the literal
prior status `absent`. -/
def handleExcuseAbsence (user : Option String) (selectedSubject : String)
    (dateStr : String) (pupilId : String) (excuseReason : String)
    (st : AttState) : Except String AttState :=
  if isBlank excuseReason then .error "Please provide a reason for the excuse"
  else
    let uid := user.getD ""
    let key := attKey pupilId selectedSubject dateStr
    let attendance' :=
      upsertBy key
        (fun r =>
          { r with status := .excused, excuse_reason := some excuseReason,
                   teacher_id := uid })
        { pupil_id := pupilId, subject_id := selectedSubject,
          date := dateStr, time_in := none, status := .excused,
          remarks := none, excuse_reason := some excuseReason,
          teacher_id := uid }
        st.attendance
    let audit : AttAudit :=
      { user_id := uid, action := "excuse_absence",
        old_status := some .absent, new_status := .excused,
        new_excuse_reason := some excuseReason }
    .ok { attendance := attendance',
          audit_logs := st.audit_logs ++ [audit],
          notifications := st.notifications }

/-- C4: a `markAttendance` call with caller-supplied status `present`
persists status `late` exactly when the selected subject's start time is
known and the observed time-in is strictly past the 15-minute threshold,
and persists `present` otherwise (unknown start time, or not past the
threshold). -/
theorem markAttendance_present_reclassified_late (uid : String) (role : Role)
    (selectedSubject : String) (subjects : List Subj) (pupils : List Pupil)
    (dateStr : String) (clock : Nat) (pupilId : String) (timeIn : Option Nat)
    (remarks : String) (st : AttState) (sub : Subj)
    (hrole : role ≠ .parent) (hsubj : selectedSubject ≠ "")
    (hfind : subjects.find? (fun s => s.id == selectedSubject) = some sub) :
    ∃ st', markAttendance (some uid) role selectedSubject subjects pupils
        dateStr clock pupilId .present timeIn remarks st = .ok st' ∧
      ∃ r, st'.attendance.find? (attKey pupilId selectedSubject dateStr) = some r ∧
        (r.status = .late ↔
          ∃ s0, sub.start_time = some s0 ∧ timeIn.getD clock > s0 + 15) ∧
        (r.status = .present ↔
          ¬ ∃ s0, sub.start_time = some s0 ∧ timeIn.getD clock > s0 + 15) := by
  rw [markAttendance]
  rw [if_neg hrole, if_neg hsubj]
  simp only [hfind]
  refine ⟨_, rfl, ?_⟩
  have hstat : ∀ r : AttendanceRecord,
      r.status = (match sub.start_time with
        | some s0 =>
            if isLate (some (timeIn.getD clock)) (some s0) then AttStatus.late
            else AttStatus.present
        | none => AttStatus.present) →
      (r.status = .late ↔
        ∃ s0, sub.start_time = some s0 ∧ timeIn.getD clock > s0 + 15) ∧
      (r.status = .present ↔
        ¬ ∃ s0, sub.start_time = some s0 ∧ timeIn.getD clock > s0 + 15) := by
    intro r hr
    cases hs : sub.start_time with
    | none =>
      rw [hs] at hr
      have hr' : r.status = AttStatus.present := hr
      simp [hr']
    | some s0 =>
      rw [hs] at hr
      have hr' : r.status =
          (if isLate (some (timeIn.getD clock)) (some s0) then AttStatus.late
           else AttStatus.present) := hr
      clear hr
      have hnot : ¬ timeIn.getD clock > s0 + 15 →
          ¬ ∃ s1, (some s0 : Option Nat) = some s1 ∧ timeIn.getD clock > s1 + 15 := by
        rintro hl ⟨s1, hs1, hl1⟩
        cases hs1
        exact absurd hl1 hl
      by_cases hl : timeIn.getD clock > s0 + 15
      · rw [if_pos (by simp [isLate, LATE_THRESHOLD_MINUTES, hl])] at hr'
        rw [hr']
        exact ⟨iff_of_true rfl ⟨s0, rfl, hl⟩,
          iff_of_false (by simp) (fun hn => hn ⟨s0, rfl, hl⟩)⟩
      · rw [if_neg (by simp [isLate, LATE_THRESHOLD_MINUTES, hl])] at hr'
        rw [hr']
        exact ⟨iff_of_false (by simp) (hnot hl), iff_of_true rfl (hnot hl)⟩
  cases hc : st.attendance.find? (attKey pupilId selectedSubject dateStr) with
  | some r0 =>
    refine ⟨_, find?_upsertBy_of_found _ _ _ ?_ hc, hstat _ rfl⟩
    intro r h
    simpa [attKey] using h
  | none =>
    refine ⟨_, find?_upsertBy_of_none _ _ _ (by simp [attKey]) hc, hstat _ rfl⟩

/-- C10: the persisted `time_in` is driven by the caller-supplied raw
status, not the derived one: it is the observed (or current) time when
the raw status is `present` or `late` — in particular a reclassified
`present` keeps its observed time — and null when the raw status is
`absent` or `excused`. -/
theorem markAttendance_time_in_follows_raw_status (uid : String) (role : Role)
    (selectedSubject : String) (subjects : List Subj) (pupils : List Pupil)
    (dateStr : String) (clock : Nat) (pupilId : String) (status : AttStatus)
    (timeIn : Option Nat) (remarks : String) (st : AttState)
    (hrole : role ≠ .parent) (hsubj : selectedSubject ≠ "") :
    ∃ st', markAttendance (some uid) role selectedSubject subjects pupils
        dateStr clock pupilId status timeIn remarks st = .ok st' ∧
      ∃ r, st'.attendance.find? (attKey pupilId selectedSubject dateStr) = some r ∧
        r.time_in = (if status = .present ∨ status = .late
                     then some (timeIn.getD clock) else none) := by
  rw [markAttendance]
  rw [if_neg hrole, if_neg hsubj]
  refine ⟨_, rfl, ?_⟩
  cases hc : st.attendance.find? (attKey pupilId selectedSubject dateStr) with
  | some r0 =>
    refine ⟨_, find?_upsertBy_of_found _ _ _ ?_ hc, rfl⟩
    intro r h
    simpa [attKey] using h
  | none =>
    exact ⟨_, find?_upsertBy_of_none _ _ _ (by simp [attKey]) hc, rfl⟩

/-- C1 counterexample: calling `handleExcuseAbsence` at a
(pupil, subject, date) key with no existing attendance row does not fail
with NotFound — the upsert succeeds and creates a fresh row with status
`excused`. -/
theorem handleExcuseAbsence_creates_row_when_absent_from_store :
    handleExcuseAbsence (some "t1") "s1" "2025-01-01" "p1" "sick"
        ⟨[], [], []⟩ =
      .ok ⟨[⟨"p1", "s1", "2025-01-01", none, .excused, none, some "sick", "t1"⟩],
           [⟨"t1", "excuse_absence", some .absent, .excused, some "sick"⟩],
           []⟩ := by
  rfl

/-- C1 amended: `handleExcuseAbsence` rejects an empty/whitespace reason
before any write; with a non-trivial reason it upserts at the
(pupil, subject, date) key — the row there afterwards has status
`excused` carrying the reason, an existing row being updated in place
and a missing row being created (never a NotFound failure). -/
theorem handleExcuseAbsence_upserts_excused (user : Option String)
    (selectedSubject dateStr pupilId excuseReason : String) (st : AttState) :
    (isBlank excuseReason = true →
      handleExcuseAbsence user selectedSubject dateStr pupilId excuseReason st =
        .error "Please provide a reason for the excuse") ∧
    (isBlank excuseReason = false →
      ∃ st', handleExcuseAbsence user selectedSubject dateStr pupilId
          excuseReason st = .ok st' ∧
        (∃ r, st'.attendance.find? (attKey pupilId selectedSubject dateStr) =
            some r ∧ r.status = .excused ∧ r.excuse_reason = some excuseReason) ∧
        st'.attendance.length =
          (if st.attendance.any (attKey pupilId selectedSubject dateStr)
           then st.attendance.length else st.attendance.length + 1)) := by
  constructor
  · intro h
    rw [handleExcuseAbsence, if_pos h]
  · intro h
    rw [handleExcuseAbsence, if_neg (by simp [h])]
    refine ⟨_, rfl, ?_, ?_⟩
    · cases hc : st.attendance.find? (attKey pupilId selectedSubject dateStr) with
      | some r0 =>
        refine ⟨_, find?_upsertBy_of_found _ _ _ ?_ hc, rfl, rfl⟩
        intro r hr
        simpa [attKey] using hr
      | none =>
        exact ⟨_, find?_upsertBy_of_none _ _ _ (by simp [attKey]) hc, rfl, rfl⟩
    · exact length_upsertBy _ _ _ _

/-- C10 witness at a concrete call: an `absent` marking stores a null
`time_in`. -/
theorem markAttendance_time_in_follows_raw_status_witness :
    ∃ st', markAttendance (some "t1") .teacher "s1" [] [] "2025-01-01" 480
        "p1" .absent (some 481) "" ⟨[], [], []⟩ = .ok st' ∧
      ∃ r, st'.attendance.find? (attKey "p1" "s1" "2025-01-01") = some r ∧
        r.time_in = (if AttStatus.absent = .present ∨ AttStatus.absent = .late
                     then some ((some 481).getD 480) else none) :=
  markAttendance_time_in_follows_raw_status "t1" .teacher "s1" [] [] "2025-01-01"
    480 "p1" .absent (some 481) "" ⟨[], [], []⟩ (by decide) (by decide)

/-- C4 witness at a concrete call: a nominal `present` at 08:16 against
an 08:00 start is persisted as `late`. -/
theorem markAttendance_present_reclassified_late_witness :
    ∃ st', markAttendance (some "t1") .teacher "s1" [⟨"s1", some 480⟩] []
        "2025-01-01" 500 "p1" .present (some 496) "" ⟨[], [], []⟩ = .ok st' ∧
      ∃ r, st'.attendance.find? (attKey "p1" "s1" "2025-01-01") = some r ∧
        (r.status = .late ↔
          ∃ s0, (Subj.mk "s1" (some 480)).start_time = some s0 ∧
            (some 496).getD 500 > s0 + 15) ∧
        (r.status = .present ↔
          ¬ ∃ s0, (Subj.mk "s1" (some 480)).start_time = some s0 ∧
            (some 496).getD 500 > s0 + 15) :=
  markAttendance_present_reclassified_late "t1" .teacher "s1" [⟨"s1", some 480⟩]
    [] "2025-01-01" 500 "p1" (some 496) "" ⟨[], [], []⟩ ⟨"s1", some 480⟩
    (by decide) (by decide) (by rfl)

/-- C1 amended witness at a concrete call: reason "sick" on an empty
store creates the excused row. -/
theorem handleExcuseAbsence_upserts_excused_witness :
    ∃ st', handleExcuseAbsence (some "t1") "s1" "2025-01-01" "p1" "sick"
        ⟨[], [], []⟩ = .ok st' ∧
      (∃ r, st'.attendance.find? (attKey "p1" "s1" "2025-01-01") = some r ∧
        r.status = .excused ∧ r.excuse_reason = some "sick") ∧
      st'.attendance.length =
        (if (List.nil (α := AttendanceRecord)).any (attKey "p1" "s1" "2025-01-01")
         then (List.nil (α := AttendanceRecord)).length
         else (List.nil (α := AttendanceRecord)).length + 1) :=
  (handleExcuseAbsence_upserts_excused (some "t1") "s1" "2025-01-01" "p1" "sick"
    ⟨[], [], []⟩).2 (by decide)

/-! ### Grade ledger (unnamed Grades page, src/unnamed/part_001)

`saveClassGrades` writes one grade per pupil for the selected subject
and quarter: entries with a non-positive value are filtered out, then
each remaining entry is checked against the `grades` table — an existing
row (keyed on pupil/subject/quarter) is updated with an `update_grade`
audit row carrying the prior value, a missing one is inserted with a
`create_grade` audit row.  `calculateClassAverages` derives per-quarter
averages (null when a quarter has no rows) and a final average over the
non-null quarterly averages. -/

structure GradeRow where
  id : Nat
  pupil_id : String
  subject_id : String
  quarter : Nat
  final_grade : ℚ
  teacher_id : String
deriving DecidableEq, Repr

structure GradeAudit where
  user_id : String
  action : String
  entity_id : Nat
  old_final_grade : Option ℚ
  new_final_grade : ℚ
deriving DecidableEq, Repr

structure GradeState where
  grades : List GradeRow
  audit_logs : List GradeAudit
  nextId : Nat
deriving DecidableEq, Repr

/-- The (pupil, subject, quarter) uniqueness key of the `grades` table. -/
def gradeKey (pupilId subjectId : String) (quarter : Nat) (g : GradeRow) : Bool :=
  g.pupil_id == pupilId && g.subject_id == subjectId && g.quarter == quarter

/-- `gradeSchema` of the Grades page:
`final_grade: z.number().min(60).max(100)`. -/
def gradeSchemaValid (g : ℚ) : Bool := decide (60 ≤ g) && decide (g ≤ 100)

/-- One iteration of the `saveClassGrades` loop: look up the existing
row by key, then either update it in place (auditing the prior value) or
insert a fresh row (auditing with no prior value). -/
def saveOneGrade (selectedSubject : String) (quarter : Nat) (teacher : String)
    (pupilId : String) (finalGrade : ℚ) (st : GradeState) : GradeState :=
  match st.grades.find? (gradeKey pupilId selectedSubject quarter) with
  | some existing =>
    { grades := st.grades.map (fun g =>
        if g.id == existing.id then
          { g with pupil_id := pupilId, subject_id := selectedSubject,
                   quarter := quarter, final_grade := finalGrade,
                   teacher_id := teacher }
        else g),
      audit_logs := st.audit_logs ++
        [⟨teacher, "update_grade", existing.id, some existing.final_grade,
          finalGrade⟩],
      nextId := st.nextId }
  | none =>
    { grades := st.grades ++
        [⟨st.nextId, pupilId, selectedSubject, quarter, finalGrade, teacher⟩],
      audit_logs := st.audit_logs ++
        [⟨teacher, "create_grade", st.nextId, none, finalGrade⟩],
      nextId := st.nextId + 1 }

/-- `saveClassGrades` from the Grades page: rejects a missing
subject/quarter selection, filters the entered grades to those `> 0`,
and runs the per-pupil upsert loop.  Note there is no range validation
on this path — `gradeSchemaValid` is declared for the entry form but the
save handler is invoked directly. -/
def saveClassGrades (classGrades : List (String × ℚ)) (selectedSubject : String)
    (selectedQuarter : Nat) (teacher : String) (st : GradeState) :
    Except String GradeState :=
  if selectedSubject = "" ∨ selectedQuarter = 0 then
    .error "Please select subject and quarter"
  else
    .ok ((classGrades.filter (fun e => decide ((0 : ℚ) < e.2))).foldl
      (fun s e => saveOneGrade selectedSubject selectedQuarter teacher e.1 e.2 s)
      st)

/-- `Math.round(x * 100) / 100` — JS `Math.round` is `⌊x + 1/2⌋`. -/
def round2 (x : ℚ) : ℚ := ((Int.floor (x * 100 + 1 / 2) : ℤ) : ℚ) / 100

/-- `round2` fixes integers. -/
theorem round2_intCast (n : ℤ) : round2 ((n : ℚ)) = (n : ℚ) := by
  have h : Int.floor ((n : ℚ) * 100 + 1 / 2) = 100 * n := by
    rw [Int.floor_eq_iff]
    constructor
    · push_cast
      linarith
    · push_cast
      linarith
  rw [round2, h]
  push_cast
  ring

/-- The per-quarter average of `calculateClassAverages`: null when the
pupil has no grade rows in the quarter, otherwise the rounded mean of
the `final_grade` values. -/
def quarterAvg (grades : List GradeRow) (pupilId : String) (q : Nat) : Option ℚ :=
  let gs := grades.filter (fun g => g.pupil_id == pupilId && g.quarter == q)
  if gs.length = 0 then none
  else some (round2 ((gs.map (fun g => g.final_grade)).sum / gs.length))

/-- The final average of `calculateClassAverages`: the mean of the
non-null quarterly averages when there are any, pushed through the JS
truthiness check `finalAvg ? Math.round(finalAvg * 100) / 100 : null`. -/
def pupilFinalAverage (grades : List GradeRow) (pupilId : String) : Option ℚ :=
  let validQuarters := ([1, 2, 3, 4].map (quarterAvg grades pupilId)).reduceOption
  let finalAvg : Option ℚ :=
    if 0 < validQuarters.length then
      some (validQuarters.sum / validQuarters.length)
    else none
  match finalAvg with
  | some v => if v = 0 then none else some (round2 v)
  | none => none

/-- C6 counterexample: a pupil whose only grade row is a `final_grade`
of 0 has a non-null Q1 quarterly average (0), so the claimed mean of the
non-null quarterly averages is 0 — yet `calculateClassAverages` reports
the final average as null, because the JS truthiness test
`finalAvg ? ... : null` treats the mean 0 as falsy. -/
theorem pupilFinalAverage_zero_mean_reported_null :
    quarterAvg [⟨0, "p", "s", 1, 0, "t"⟩] "p" 1 = some 0 ∧
    pupilFinalAverage [⟨0, "p", "s", 1, 0, "t"⟩] "p" = none := by
  have h := round2_intCast 0
  norm_num at h
  constructor
  · norm_num [quarterAvg, h]
  · norm_num [pupilFinalAverage, quarterAvg, h, List.reduceOption,
      List.filterMap_cons, List.filterMap_nil]

/-- The non-null quarterly averages of a pupil, as the amended claim's
words refer to them: the Q1–Q4 averages with the null quarters dropped.
Stated from the spec's wording, to be compared with the source-derived
`pupilFinalAverage`. -/
def nonNullQuarterAvgs (grades : List GradeRow) (pupilId : String) : List ℚ :=
  ([1, 2, 3, 4].map (quarterAvg grades pupilId)).reduceOption

/-- C6 amended: for every pupil, the final average is the rounded
arithmetic mean of only the non-null quarterly averages — whichever
subset of the four quarters has data, the divisor is the number of
quarters with data — with exactly two null cases: no quarter has data,
or the mean is exactly 0 (the JS truthiness exception).  In particular
a pupil with data only in Q1 and Q3 gets the mean of those two
averages, divided by 2 and not by 4. -/
theorem pupilFinalAverage_mean_of_nonnull_quarters
    (grades : List GradeRow) (pupilId : String) :
    (nonNullQuarterAvgs grades pupilId = [] →
      pupilFinalAverage grades pupilId = none) ∧
    (nonNullQuarterAvgs grades pupilId ≠ [] →
      ((nonNullQuarterAvgs grades pupilId).sum /
          ((nonNullQuarterAvgs grades pupilId).length : ℚ) ≠ 0 →
        pupilFinalAverage grades pupilId =
          some (round2 ((nonNullQuarterAvgs grades pupilId).sum /
            ((nonNullQuarterAvgs grades pupilId).length : ℚ)))) ∧
      ((nonNullQuarterAvgs grades pupilId).sum /
          ((nonNullQuarterAvgs grades pupilId).length : ℚ) = 0 →
        pupilFinalAverage grades pupilId = none)) ∧
    (∀ a b : ℚ, quarterAvg grades pupilId 1 = some a →
      quarterAvg grades pupilId 2 = none →
      quarterAvg grades pupilId 3 = some b →
      quarterAvg grades pupilId 4 = none →
      a + b ≠ 0 →
      pupilFinalAverage grades pupilId = some (round2 ((a + b) / 2))) := by
  have key : pupilFinalAverage grades pupilId =
      (if nonNullQuarterAvgs grades pupilId = [] then none
       else if (nonNullQuarterAvgs grades pupilId).sum /
           ((nonNullQuarterAvgs grades pupilId).length : ℚ) = 0 then none
       else some (round2 ((nonNullQuarterAvgs grades pupilId).sum /
           ((nonNullQuarterAvgs grades pupilId).length : ℚ)))) := by
    simp only [pupilFinalAverage, nonNullQuarterAvgs]
    cases hvq : ([1, 2, 3, 4].map (quarterAvg grades pupilId)).reduceOption with
    | nil => rfl
    | cons a l =>
      have hlen : 0 < (a :: l).length := by simp
      rw [if_pos hlen, if_neg (List.cons_ne_nil a l)]
  refine ⟨?_, ?_, ?_⟩
  · intro h
    rw [key, if_pos h]
  · intro hne
    constructor
    · intro hz
      rw [key, if_neg hne, if_neg hz]
    · intro hz
      rw [key, if_neg hne, if_pos hz]
  · intro a b h1 h2 h3 h4 hz
    have hlist : nonNullQuarterAvgs grades pupilId = [a, b] := by
      simp [nonNullQuarterAvgs, h1, h2, h3, h4, List.reduceOption]
    have hmean : ([a, b] : List ℚ).sum / (([a, b] : List ℚ).length : ℚ) =
        (a + b) / 2 := by
      norm_num
    rw [key, hlist, if_neg (List.cons_ne_nil a [b]), hmean,
      if_neg (div_ne_zero hz two_ne_zero)]

/-- C6 amended witness: grades 80 (Q1) and 90 (Q3) only give a final
average of (80 + 90) / 2. -/
theorem pupilFinalAverage_mean_of_nonnull_quarters_witness :
    pupilFinalAverage [⟨0, "p", "s", 1, 80, "t"⟩, ⟨1, "p", "s2", 3, 90, "t"⟩]
      "p" = some (round2 ((80 + 90) / 2)) := by
  have h80 := round2_intCast 80
  have h90 := round2_intCast 90
  norm_num at h80 h90
  exact (pupilFinalAverage_mean_of_nonnull_quarters
      [⟨0, "p", "s", 1, 80, "t"⟩, ⟨1, "p", "s2", 3, 90, "t"⟩] "p").2.2 80 90
    (by norm_num [quarterAvg, h80]) (by norm_num [quarterAvg])
    (by norm_num [quarterAvg, h90]) (by norm_num [quarterAvg]) (by norm_num)

/-- C7: two `saveClassGrades` calls for the same (pupil, subject,
quarter) key starting from a store with no row at that key and with
fresh ids: afterwards the key holds exactly the second value, each call
appended exactly one audit row, the first audit row has no before-value
and the second one's before-value is the first call's grade. -/
theorem saveClassGrades_twice_last_write_wins (st : GradeState)
    (p subj t1 t2 : String) (q : Nat) (g1 g2 : ℚ)
    (hs : ¬(subj = "" ∨ q = 0)) (hg1 : 0 < g1) (hg2 : 0 < g2)
    (hnone : st.grades.find? (gradeKey p subj q) = none)
    (hfresh : ∀ g ∈ st.grades, g.id ≠ st.nextId) :
    ∃ st1 st2, saveClassGrades [(p, g1)] subj q t1 st = .ok st1 ∧
      saveClassGrades [(p, g2)] subj q t2 st1 = .ok st2 ∧
      (st2.grades.filter (gradeKey p subj q)).map (fun g => g.final_grade) =
        [g2] ∧
      st1.audit_logs = st.audit_logs ++
        [⟨t1, "create_grade", st.nextId, none, g1⟩] ∧
      st2.audit_logs = st1.audit_logs ++
        [⟨t2, "update_grade", st.nextId, some g1, g2⟩] := by
  have e1 : saveClassGrades [(p, g1)] subj q t1 st =
      .ok (saveOneGrade subj q t1 p g1 st) := by
    rw [saveClassGrades, if_neg hs]
    simp [hg1]
  have hst1 : saveOneGrade subj q t1 p g1 st =
      ⟨st.grades ++ [⟨st.nextId, p, subj, q, g1, t1⟩],
       st.audit_logs ++ [⟨t1, "create_grade", st.nextId, none, g1⟩],
       st.nextId + 1⟩ := by
    rw [saveOneGrade, hnone]
  have hfind2 : (st.grades ++
        ([⟨st.nextId, p, subj, q, g1, t1⟩] : List GradeRow)).find?
      (gradeKey p subj q) = some ⟨st.nextId, p, subj, q, g1, t1⟩ := by
    rw [find?_append_of_none _ _ _ hnone, List.find?_cons_of_pos]
    simp [gradeKey]
  have e2 : saveClassGrades [(p, g2)] subj q t2
      ⟨st.grades ++ [⟨st.nextId, p, subj, q, g1, t1⟩],
       st.audit_logs ++ [⟨t1, "create_grade", st.nextId, none, g1⟩],
       st.nextId + 1⟩ =
      .ok ⟨(st.grades ++ ([⟨st.nextId, p, subj, q, g1, t1⟩] : List GradeRow)).map
             (fun g => if g.id == st.nextId then
                ({ g with pupil_id := p, subject_id := subj, quarter := q,
                          final_grade := g2, teacher_id := t2 } : GradeRow)
              else g),
           (st.audit_logs ++ [⟨t1, "create_grade", st.nextId, none, g1⟩]) ++
             [⟨t2, "update_grade", st.nextId, some g1, g2⟩],
           st.nextId + 1⟩ := by
    rw [saveClassGrades, if_neg hs]
    simp only [List.filter_cons, List.filter_nil, decide_eq_true_eq, hg2,
      if_pos, List.foldl_cons, List.foldl_nil]
    rw [saveOneGrade]
    simp only [hfind2]
  refine ⟨_, _, e1.trans (congrArg _ hst1), e2, ?_, rfl, rfl⟩
  simp only [List.map_append]
  have hmap : st.grades.map (fun g =>
      if g.id == st.nextId then
        ({ g with pupil_id := p, subject_id := subj, quarter := q,
                  final_grade := g2, teacher_id := t2 } : GradeRow)
      else g) = st.grades := by
    rw [List.map_congr_left (g := id) ?_, List.map_id]
    intro g hg
    simp [hfresh g hg]
  rw [hmap, List.filter_append]
  have hnil : st.grades.filter (gradeKey p subj q) = [] := by
    rw [List.filter_eq_nil_iff]
    intro g hg
    have := List.find?_eq_none.mp hnone g hg
    simpa using this
  rw [hnil]
  simp [gradeKey]

/-- C7 witness: saving 80 then 85 for the same key on an empty store. -/
theorem saveClassGrades_twice_last_write_wins_witness :
    ∃ st1 st2, saveClassGrades [("p1", (80 : ℚ))] "s1" 1 "t1" ⟨[], [], 0⟩ =
        .ok st1 ∧
      saveClassGrades [("p1", (85 : ℚ))] "s1" 1 "t2" st1 = .ok st2 ∧
      (st2.grades.filter (gradeKey "p1" "s1" 1)).map (fun g => g.final_grade) =
        [(85 : ℚ)] ∧
      st1.audit_logs = ([] : List GradeAudit) ++
        [⟨"t1", "create_grade", 0, none, 80⟩] ∧
      st2.audit_logs = st1.audit_logs ++
        [⟨"t2", "update_grade", 0, some 80, 85⟩] :=
  saveClassGrades_twice_last_write_wins ⟨[], [], 0⟩ "p1" "s1" "t1" "t2" 1 80 85
    (by simp) (by norm_num) (by norm_num) rfl (by simp)

/-- C8: the claim that every grade accepted by the save path lies in
60–100 fails — `saveClassGrades` only filters out non-positive entries
and the declared `gradeSchema` bound is never consulted on this path: a
`finalGrade` of 50 is outside the schema range yet is written as a
GradeRecord with a success result and no validation error. -/
theorem saveClassGrades_accepts_out_of_range_grade :
    gradeSchemaValid 50 = false ∧
    saveClassGrades [("p1", (50 : ℚ))] "s1" 1 "t1" ⟨[], [], 0⟩ =
      .ok ⟨[⟨0, "p1", "s1", 1, 50, "t1"⟩],
           [⟨"t1", "create_grade", 0, none, 50⟩], 1⟩ := by
  constructor
  · rfl
  · rfl

/-! ### Registration approval workflow (src/pages/Users.tsx)

`handleApproveRegistration` drives the approval: it calls the
`approve_user_registration` stored procedure, short-circuits when the
procedure reports that an Account already exists for the registration's
email, otherwise creates the identity-provider credential
(`supabase.auth.signUp`) and, on success, the profile row
(`create_user_profile_after_auth`).  A `signUp` failure reverts the
registration status to `pending` and surfaces the error.  The provider
call is modelled as an oracle argument: `.error e` (failed, no
credential created), `.ok none` (no error but no user — the
`!authData.user` branch), `.ok (some u)` (credential `u` created). -/

inductive RegStatus
  | pending
  | under_review
  | approved
  | rejected
deriving DecidableEq, Repr

structure Registration where
  id : String
  email : String
  password : String
  full_name : String
  status : RegStatus
deriving DecidableEq, Repr

/-- A `users` profile row (the Account of the spec). -/
structure Account where
  id : String
  email : String
deriving DecidableEq, Repr

/-- An identity-provider credential. -/
structure AuthUser where
  id : String
  email : String
deriving DecidableEq, Repr

structure RegState where
  registrations : List Registration
  users : List Account
  authUsers : List AuthUser
deriving DecidableEq, Repr

/-- Modelled from the spec: the `approve_user_registration` stored
procedure called by `handleApproveRegistration` is not under src/ (only
its caller is).  Per §4.3 steps 1–2 it fails with NotFound for an
unknown registration id and AlreadyProcessed for a terminal status,
otherwise transitions the status to `approved`, returns the registration
snapshot and reports whether an Account already exists for its email. -/
def approve_user_registration (regId : String) (st : RegState) :
    Except String (RegState × Registration × Bool) :=
  match st.registrations.find? (fun r => r.id == regId) with
  | none => .error "Registration does not exist"
  | some reg =>
    if reg.status = .approved ∨ reg.status = .rejected then
      .error "Registration already processed"
    else
      .ok ({ st with registrations := st.registrations.map (fun r =>
               if r.id == regId then { r with status := .approved } else r) },
           reg,
           st.users.any (fun u => u.email == reg.email))

/-- `handleApproveRegistration` from `src/pages/Users.tsx` (the
`create_user_profile_after_auth` procedure of step 3 is likewise
modelled from the spec as inserting the Account row keyed to the new
identity id).  The `already_exists` branch returns success without
touching the identity provider or the `users` table; a `signUp` error
reverts the registration to `pending` and surfaces the failure. -/
def handleApproveRegistration (regId : String)
    (signUpResult : Except String (Option AuthUser)) (st : RegState) :
    RegState × Except String Bool :=
  match approve_user_registration regId st with
  | .error e => (st, .error e)
  | .ok (st1, reg, alreadyExists) =>
    if alreadyExists then (st1, .ok true)
    else
      match signUpResult with
      | .error e =>
        ({ st1 with registrations := st1.registrations.map (fun r =>
             if r.id == regId then { r with status := .pending } else r) },
         .error ("Failed to create user account: " ++ e))
      | .ok none => (st1, .error "Failed to create user account")
      | .ok (some authUser) =>
        ({ st1 with authUsers := st1.authUsers ++ [authUser],
                    users := st1.users ++ [⟨authUser.id, reg.email⟩] },
         .ok false)

/-- C2: approving a registration whose email already has an Account
succeeds with `alreadyExisted = true`, leaves the `users` table and the
identity provider untouched (for any provider behaviour), and so leaves
exactly one Account for that email. -/
theorem handleApproveRegistration_idempotent_on_existing_email
    (regId : String) (signUpResult : Except String (Option AuthUser))
    (st : RegState) (reg : Registration)
    (hfind : st.registrations.find? (fun r => r.id == regId) = some reg)
    (hterm : ¬(reg.status = .approved ∨ reg.status = .rejected))
    (hone : (st.users.filter (fun u => u.email == reg.email)).length = 1) :
    ∃ st', handleApproveRegistration regId signUpResult st = (st', .ok true) ∧
      st'.users = st.users ∧ st'.authUsers = st.authUsers ∧
      (st'.users.filter (fun u => u.email == reg.email)).length = 1 := by
  have hany : st.users.any (fun u => u.email == reg.email) = true := by
    cases hq : st.users.any (fun u => u.email == reg.email) with
    | true => rfl
    | false =>
      have : st.users.filter (fun u => u.email == reg.email) = [] := by
        rw [List.filter_eq_nil_iff]
        intro u hu
        have := List.any_eq_false.mp hq u hu
        simpa using this
      rw [this] at hone
      cases hone
  have happrove : approve_user_registration regId st =
      .ok ({ st with registrations := st.registrations.map (fun r =>
               if r.id == regId then { r with status := .approved } else r) },
           reg, st.users.any (fun u => u.email == reg.email)) := by
    rw [approve_user_registration, hfind]
    exact if_neg hterm
  rw [handleApproveRegistration, happrove, hany]
  exact ⟨_, rfl, rfl, rfl, hone⟩

/-- C2 witness: a pending registration for an email that already has
exactly one Account is approved with `alreadyExisted = true` even though
the identity provider would fail if called. -/
theorem handleApproveRegistration_idempotent_on_existing_email_witness :
    ∃ st', handleApproveRegistration "r1" (.error "provider down")
        ⟨[⟨"r1", "a@x", "pw", "N", .pending⟩], [⟨"u1", "a@x"⟩], [⟨"au1", "a@x"⟩]⟩ =
        (st', .ok true) ∧
      st'.users = [⟨"u1", "a@x"⟩] ∧ st'.authUsers = [⟨"au1", "a@x"⟩] ∧
      (st'.users.filter (fun u =>
          u.email == (Registration.mk "r1" "a@x" "pw" "N" .pending).email)).length
        = 1 :=
  handleApproveRegistration_idempotent_on_existing_email "r1"
    (.error "provider down")
    ⟨[⟨"r1", "a@x", "pw", "N", .pending⟩], [⟨"u1", "a@x"⟩], [⟨"au1", "a@x"⟩]⟩
    ⟨"r1", "a@x", "pw", "N", .pending⟩ rfl (by decide) rfl

/-- C3: when the identity-provider credential creation fails during
approval of a registration whose email has no Account yet, the
registration is reverted to `pending`, the failure is surfaced to the
caller, and neither an Account nor a credential is created. -/
theorem handleApproveRegistration_reverts_on_auth_failure
    (regId e : String) (st : RegState) (reg : Registration)
    (hfind : st.registrations.find? (fun r => r.id == regId) = some reg)
    (hterm : ¬(reg.status = .approved ∨ reg.status = .rejected))
    (hnoacct : st.users.any (fun u => u.email == reg.email) = false) :
    ∃ st', handleApproveRegistration regId (.error e) st =
        (st', .error ("Failed to create user account: " ++ e)) ∧
      st'.registrations.find? (fun r => r.id == regId) =
        some { reg with status := .pending } ∧
      st'.users = st.users ∧ st'.authUsers = st.authUsers := by
  have happrove : approve_user_registration regId st =
      .ok ({ st with registrations := st.registrations.map (fun r =>
               if r.id == regId then { r with status := .approved } else r) },
           reg, st.users.any (fun u => u.email == reg.email)) := by
    rw [approve_user_registration, hfind]
    exact if_neg hterm
  rw [handleApproveRegistration, happrove, hnoacct]
  refine ⟨_, rfl, ?_, rfl, rfl⟩
  have hpres : ∀ g : Registration → Registration,
      (∀ r, (g r).id = r.id) →
      ∀ r : Registration, (fun r => r.id == regId) r = true →
        (fun r => r.id == regId) (g r) = true := by
    intro g hg r hr
    simpa [hg r] using hr
  show ((st.registrations.map (fun r =>
      if (fun r : Registration => r.id == regId) r then
        { r with status := RegStatus.approved } else r)).map (fun r =>
      if (fun r : Registration => r.id == regId) r then
        { r with status := RegStatus.pending } else r)).find?
      (fun r => r.id == regId) = some { reg with status := .pending }
  rw [find?_map_ite (fun r : Registration => r.id == regId) _
      (hpres (fun r => { r with status := .pending }) (fun _ => rfl)),
    find?_map_ite (fun r : Registration => r.id == regId) _
      (hpres (fun r => { r with status := .approved }) (fun _ => rfl)),
    hfind]
  rfl

/-- C3 witness: a provider failure on a fresh approval leaves the
registration pending and creates nothing. -/
theorem handleApproveRegistration_reverts_on_auth_failure_witness :
    ∃ st', handleApproveRegistration "r1" (.error "boom")
        ⟨[⟨"r1", "a@x", "pw", "N", .pending⟩], [], []⟩ =
        (st', .error ("Failed to create user account: " ++ "boom")) ∧
      st'.registrations.find? (fun r => r.id == "r1") =
        some { Registration.mk "r1" "a@x" "pw" "N" .pending with
               status := .pending } ∧
      st'.users = [] ∧ st'.authUsers = [] :=
  handleApproveRegistration_reverts_on_auth_failure "r1" "boom"
    ⟨[⟨"r1", "a@x", "pw", "N", .pending⟩], [], []⟩
    ⟨"r1", "a@x", "pw", "N", .pending⟩ rfl (by decide) rfl

/-! ### Bulk promotion (unnamed Pupils page, src/unnamed/part_002)

`handlePromotePupils` validates the destination selection, then issues a
single `update ... in('id', selectedPupilIds)` against the `pupils`
table: every row whose id is in the selection gets the new grade level
and section, ids matching no row are simply not matched (the statement
still succeeds), and one audit row is written per selected id. -/

structure PromoAudit where
  user_id : String
  action : String
  entity_id : String
  old_grade_level : Nat
  new_grade_level : Nat
  new_section : String
deriving DecidableEq, Repr

structure PupilsState where
  pupils : List Pupil
  audit_logs : List PromoAudit
deriving DecidableEq, Repr

def handlePromotePupils (promotionToGrade : Nat) (promotionToSection : String)
    (selected : List String) (promotionFromGrade : Nat) (st : PupilsState) :
    Except String PupilsState :=
  if promotionToGrade = 0 ∨ promotionToSection = "" ∨ selected.isEmpty then
    .error "Please select destination grade, section, and pupils to promote"
  else
    .ok { pupils := st.pupils.map (fun p =>
            if selected.contains p.id then
              { p with grade_level := promotionToGrade,
                       class_section := promotionToSection }
            else p),
          audit_logs := st.audit_logs ++ selected.map (fun pid =>
            ⟨"current_user_id", "promote_pupil", pid, promotionFromGrade,
             promotionToGrade, promotionToSection⟩) }

/-- C9: a bulk promotion whose selection contains an id matching no
pupil still succeeds, and every selected pupil that does exist receives
the new grade level and section — the invalid id does not block the
others. -/
theorem handlePromotePupils_invalid_id_does_not_block_others
    (toGrade : Nat) (toSection : String) (selected : List String)
    (fromGrade : Nat) (st : PupilsState) (badId : String)
    (hg : toGrade ≠ 0) (hsec : toSection ≠ "") (hbad : badId ∈ selected)
    (hmiss : ∀ p ∈ st.pupils, p.id ≠ badId) :
    ∃ st', handlePromotePupils toGrade toSection selected fromGrade st =
        .ok st' ∧
      ∀ p ∈ st.pupils, p.id ∈ selected →
        ({ p with grade_level := toGrade, class_section := toSection } : Pupil)
          ∈ st'.pupils := by
  have hne : selected.isEmpty = false := by
    cases selected with
    | nil => cases hbad
    | cons a l => rfl
  rw [handlePromotePupils, if_neg (by simp [hg, hsec, hne])]
  refine ⟨_, rfl, ?_⟩
  intro p hp hmem
  have hc : selected.contains p.id = true := List.elem_eq_true_of_mem hmem
  have hmm := List.mem_map_of_mem (fun q : Pupil =>
      if selected.contains q.id then
        { q with grade_level := toGrade, class_section := toSection }
      else q) hp
  simp only [hc, if_true] at hmm
  exact hmm

/-- C9 witness: promoting a selection of five ids, one of which matches
no pupil, still updates the four existing pupils. -/
theorem handlePromotePupils_invalid_id_does_not_block_others_witness :
    ∃ st', handlePromotePupils 3 "B" ["a", "b", "c", "d", "bad"] 2
        ⟨[⟨"a", 2, "A", false, none⟩, ⟨"b", 2, "A", false, none⟩,
          ⟨"c", 2, "A", false, none⟩, ⟨"d", 2, "A", false, none⟩], []⟩ =
        .ok st' ∧
      ∀ p ∈ [(⟨"a", 2, "A", false, none⟩ : Pupil), ⟨"b", 2, "A", false, none⟩,
          ⟨"c", 2, "A", false, none⟩, ⟨"d", 2, "A", false, none⟩],
        p.id ∈ ["a", "b", "c", "d", "bad"] →
        ({ p with grade_level := 3, class_section := "B" } : Pupil)
          ∈ st'.pupils :=
  handlePromotePupils_invalid_id_does_not_block_others 3 "B"
    ["a", "b", "c", "d", "bad"] 2
    ⟨[⟨"a", 2, "A", false, none⟩, ⟨"b", 2, "A", false, none⟩,
      ⟨"c", 2, "A", false, none⟩, ⟨"d", 2, "A", false, none⟩], []⟩ "bad"
    (by decide) (by decide) (by decide) (by decide)

end Iskwela
